import Mathlib

/-!
Verification of the template-resolution engine, HTTP request builder and
TUI request-state machine of the `slumber` terminal HTTP client.

Shallow embedding conventions:
* Rust `&str` and `String` payloads are both modelled as Lean `String`
  (borrowing is a memory-layout notion with no shallow counterpart);
  `str::to_owned` is the function `strToOwned`, which produces a string
  equal to its input.
* Underlying library error values (`serde_json_path::ParseError`,
  `anyhow::Error`, `ExactlyOneError`, `VarError`) are carried opaquely as
  `String` values; the code under verification only moves them around.
* Fallible Rust functions returning `Result` are modelled with `Except`.
* `IndexMap<String, String>` is modelled as an association list with
  first-match lookup (keys are unique in an `IndexMap`).
-/

set_option maxHeartbeats 1000000

namespace Slumber

instance {ε α : Type} [DecidableEq ε] [DecidableEq α] :
    DecidableEq (Except ε α) := fun a b =>
  match a, b with
  | .ok x, .ok y =>
    if h : x = y then isTrue (by simp [h]) else isFalse (by simp [h])
  | .ok _, .error _ => isFalse (by simp)
  | .error _, .ok _ => isFalse (by simp)
  | .error e, .error f =>
    if h : e = f then isTrue (by simp [h]) else isFalse (by simp [h])

/-- `str::to_owned`: produces an owned copy of a borrowed string; the copy is
equal, as a string, to the original. -/
def strToOwned (s : String) : String := s

/-- Rust `str::split(sep)` on the character list of a string: split at every
occurrence of `sep`; adjacent separators and separators at either end yield
empty segments, and the empty input yields one empty segment. -/
def splitChar (sep : Char) : List Char → List (List Char)
  | [] => [[]]
  | c :: cs =>
    if c = sep then [] :: splitChar sep cs
    else
      match splitChar sep cs with
      | [] => [[c]]
      | seg :: rest => (c :: seg) :: rest

/-- The `.`-separated segments of a captured template key
(Rust `s.split('.').collect::<Vec<_>>()`). -/
def keySegments (s : String) : List String :=
  (splitChar '.' s.data).map String.mk

/-- `TemplateError` from `template.rs`: the error taxonomy of the template
engine. One Lean constructor per Rust variant; the generic payload type `S`
(borrowed `&str` vs owned `String`) collapses to `String` in the model, and
wrapped library errors are carried as strings. -/
inductive TemplateError where
  | InvalidKey (key : String)
  | FieldUnknown (field : String)
  | ChainUnknown (chain_id : String)
  | ChainNoResponse (chain_id : String)
  | ChainJsonPath (chain_id : String) (path : String) (error : String)
  | ChainParseResponse (chain_id : String) (error : String)
  | ChainIncorrectContentType (chain_id : String) (error : String)
  | ChainInvalidResult (chain_id : String) (error : String)
  | EnvironmentVariable (variable_name : String) (error : String)
  | Repository (error : String)
  deriving Repr, DecidableEq

/-- `TemplateError::into_owned` from `template.rs` lines 346-406, arm by arm:
convert a borrowed error into an owned one by cloning every string payload.
Note the `ChainIncorrectContentType` arm of the source constructs a
`ChainParseResponse` value. -/
def TemplateError.into_owned : TemplateError → TemplateError
  | .InvalidKey key => .InvalidKey (strToOwned key)
  | .FieldUnknown field => .FieldUnknown (strToOwned field)
  | .ChainUnknown chain_id => .ChainUnknown (strToOwned chain_id)
  | .ChainNoResponse chain_id => .ChainNoResponse (strToOwned chain_id)
  | .ChainJsonPath chain_id path error =>
      .ChainJsonPath (strToOwned chain_id) (strToOwned path) error
  | .ChainParseResponse chain_id error =>
      .ChainParseResponse (strToOwned chain_id) error
  | .ChainIncorrectContentType chain_id error =>
      .ChainParseResponse (strToOwned chain_id) error
  | .ChainInvalidResult chain_id error =>
      .ChainInvalidResult (strToOwned chain_id) error
  | .EnvironmentVariable variable_name error =>
      .EnvironmentVariable (strToOwned variable_name) error
  | .Repository err => .Repository err

/-- `TemplateKey` from `template.rs`: the closed classification of a parsed
placeholder key. -/
inductive TemplateKey where
  | Field (key : String)
  | Chain (chain_id : String)
  | Environment (variable_name : String)
  deriving Repr, DecidableEq

/-- `TemplateKey::parse` from `template.rs` lines 119-126: split the captured
key text on `.` and classify the segment list. The source's literal-string
patterns `["chains", id]` and `["env", v]` on the two-element case are
compiled to explicit equality tests. -/
def TemplateKey.parse (s : String) : Except TemplateError TemplateKey :=
  match keySegments s with
  | [key] => .ok (.Field key)
  | [a, b] =>
    if a = "chains" then .ok (.Chain b)
    else if a = "env" then .ok (.Environment b)
    else .error (.InvalidKey s)
  | _ => .error (.InvalidKey s)

/-- `C1`: the borrowed-to-owned error conversion is claimed lossless
(same variant, equal string payloads, for every variant). The code violates
this at the `ChainIncorrectContentType` variant: `into_owned` rebuilds it as a
`ChainParseResponse` value, changing the variant (and hence the displayed
message) while its own doc comment says it only clones every string. -/
theorem into_owned_changes_incorrect_content_type_variant :
    TemplateError.into_owned
        (.ChainIncorrectContentType "chain1" "content type error") =
      .ChainParseResponse "chain1" "content type error" ∧
    TemplateError.into_owned
        (.ChainIncorrectContentType "chain1" "content type error") ≠
      .ChainIncorrectContentType "chain1" "content type error" := by
  constructor
  · rfl
  · decide

/-- `C2` counterexample: the claim says a captured key with an empty segment,
such as `chains.`, fails with `InvalidKey` carrying the raw key text; the code
(and its own unit test) instead parses `chains.` as `Chain ""`. -/
theorem parse_chains_dot_is_not_invalid_key :
    TemplateKey.parse "chains." = .ok (.Chain "") ∧
    TemplateKey.parse "chains." ≠ .error (.InvalidKey "chains.") := by
  refine ⟨by decide, by decide⟩

/-- `C2` (amended): `TemplateKey::parse` splits the key on `.` and returns
`Field` for exactly one segment, `Chain id` for exactly the two segments
`chains`,`id` (`id` may be empty, e.g. `chains.`), `Environment name` for
exactly the two segments `env`,`name`, and for any other segment shape fails
with `InvalidKey` carrying the raw key text. -/
theorem parse_classifies_by_segments (s : String) :
    (∀ k, TemplateKey.parse s = .ok (.Field k) ↔ keySegments s = [k]) ∧
    (∀ c, TemplateKey.parse s = .ok (.Chain c) ↔
      keySegments s = ["chains", c]) ∧
    (∀ v, TemplateKey.parse s = .ok (.Environment v) ↔
      keySegments s = ["env", v]) ∧
    (TemplateKey.parse s = .error (.InvalidKey s) ↔
      ((¬ ∃ k, keySegments s = [k]) ∧
        (¬ ∃ c, keySegments s = ["chains", c]) ∧
        (¬ ∃ v, keySegments s = ["env", v]))) ∧
    (∀ e, TemplateKey.parse s = .error e → e = .InvalidKey s) := by
  unfold TemplateKey.parse
  rcases h : keySegments s with _ | ⟨a, _ | ⟨b, _ | ⟨c, rest⟩⟩⟩
  · simp
  · simp
  · by_cases ha : a = "chains"
    · subst ha
      simp
    · by_cases ha2 : a = "env"
      · subst ha2
        simp [ha]
      · simp [ha, ha2]
  · simp

/-- Witness for `parse_classifies_by_segments`: the two-segment key
`env.HOME` parses to `Environment "HOME"`, and the three-segment key
`chains.good.bad` fails with `InvalidKey` carrying the raw key text. -/
theorem parse_classifies_by_segments_witness :
    TemplateKey.parse "env.HOME" = .ok (.Environment "HOME") ∧
    TemplateKey.parse "chains.good.bad" =
      .error (.InvalidKey "chains.good.bad") := by
  constructor
  · exact ((parse_classifies_by_segments "env.HOME").2.2.1 "HOME").mpr
      (by decide)
  · refine (parse_classifies_by_segments "chains.good.bad").2.2.2.1.mpr ?_
    have hseg : keySegments "chains.good.bad" = ["chains", "good", "bad"] :=
      by decide
    simp [hseg]

/-! ## Field resolution (`FieldSource::render`, template.rs lines 163-177) -/

/-- `FieldSource::render` from `template.rs` lines 163-177: cascade down the
list of maps (overrides first, then profile); an absent key in both maps is a
`FieldUnknown` error carrying the field name. The two `IndexMap`s are
association lists with `lookup` as `get`. -/
def FieldSource.render (context_overrides context_profile :
    List (String × String)) (field : String) : Except TemplateError String :=
  match (context_overrides.lookup field).orElse
      (fun _ => context_profile.lookup field) with
  | some v => .ok v
  | none => .error (.FieldUnknown field)

/-- `C5`: field resolution consults overrides first, then the profile; an
override value wins whenever the name is present in overrides (regardless of
the profile); a name absent from both maps fails with `FieldUnknown` carrying
that name. -/
theorem field_resolution_order (ov pf : List (String × String))
    (field : String) :
    (∀ v, ov.lookup field = some v →
      FieldSource.render ov pf field = .ok v) ∧
    (ov.lookup field = none →
      ∀ v, pf.lookup field = some v →
        FieldSource.render ov pf field = .ok v) ∧
    (ov.lookup field = none → pf.lookup field = none →
      FieldSource.render ov pf field = .error (.FieldUnknown field)) := by
  refine ⟨?_, ?_, ?_⟩
  · intro v hv
    simp [FieldSource.render, hv, Option.orElse]
  · intro hov v hv
    simp [FieldSource.render, hov, hv, Option.orElse]
  · intro hov hpf
    simp [FieldSource.render, hov, hpf, Option.orElse]

/-- Witness for `field_resolution_order`: a key present in both maps resolves
to the override value, and a key present in neither fails with
`FieldUnknown`. -/
theorem field_resolution_order_witness :
    FieldSource.render [("user_id", "2")]
      [("user_id", "1"), ("group_id", "3")] "user_id" = .ok "2" ∧
    FieldSource.render [("user_id", "2")]
      [("user_id", "1"), ("group_id", "3")] "onion_id" =
      .error (.FieldUnknown "onion_id") := by
  constructor
  · exact (field_resolution_order [("user_id", "2")]
      [("user_id", "1"), ("group_id", "3")] "user_id").1 "2" (by decide)
  · exact (field_resolution_order [("user_id", "2")]
      [("user_id", "1"), ("group_id", "3")] "onion_id").2.2
      (by decide) (by decide)

/-! ## Request orchestrator state machine (`tui/state.rs`) -/

/-- `RequestRecord` from the HTTP layer as stored in `RequestState::Response`:
the request's recipe id plus the timing fields the state machine reads.
The record is otherwise carried around untouched. -/
structure RequestRecord where
  recipe_id : String
  start_time : Int
  end_time : Int
  deriving Repr, DecidableEq

/-- `RequestState` from `tui/state.rs` lines 300-318. Clock instants
(`DateTime<Utc>`) are modelled as integers; `anyhow::Error` payloads as
strings. -/
inductive RequestState where
  | Loading (start_time : Int)
  | Response (record : RequestRecord)
  | Error (error : String) (start_time : Int) (end_time : Int)
  deriving Repr, DecidableEq

/-- `RequestState::is_loading` from `tui/state.rs` lines 321-323. -/
def RequestState.is_loading : RequestState → Bool
  | .Loading _ => true
  | _ => false

/-- `RequestState::start_time` from `tui/state.rs` lines 326-332. -/
def RequestState.start_time : RequestState → Int
  | .Loading t => t
  | .Response record => record.start_time
  | .Error _ t _ => t

/-- The `active_requests: HashMap<RequestRecipeId, RequestState>` map of
`UiState`, modelled extensionally as a function from recipe ids to optional
states. -/
def ActiveRequests : Type := String → Option RequestState

/-- `HashMap` insertion (both `entry(..).insert` and `*entry.get_mut() = ..`
assign the value at the key). -/
def ActiveRequests.insert (m : ActiveRequests) (recipe_id : String)
    (st : RequestState) : ActiveRequests :=
  fun k => if k = recipe_id then some st else m k

/-- `AppState::start_request` from `tui/state.rs` lines 143-164: if an entry
for the recipe exists and is loading, log and leave the map unchanged;
otherwise (occupied with a terminal state, or vacant) set the entry to
`Loading { start_time: now }`. -/
def start_request (m : ActiveRequests) (recipe_id : String) (now : Int) :
    ActiveRequests :=
  match m recipe_id with
  | some entry =>
    if entry.is_loading then m
    else m.insert recipe_id (.Loading now)
  | none => m.insert recipe_id (.Loading now)

/-- `AppState::finish_request` from `tui/state.rs` lines 167-182: if the state
for the record's recipe is loading, replace it with `Response(record)`;
otherwise log and leave the map untouched. -/
def finish_request (m : ActiveRequests) (record : RequestRecord) :
    ActiveRequests :=
  match m record.recipe_id with
  | some st =>
    if st.is_loading then m.insert record.recipe_id (.Response record)
    else m
  | none => m

/-- `AppState::fail_request` from `tui/state.rs` lines 185-207: if the state
for the recipe is loading, replace it with an `Error` state that keeps the
loading state's `start_time` and stamps `end_time` with the current instant;
otherwise log and leave the map untouched. -/
def fail_request (m : ActiveRequests) (recipe_id : String) (err : String)
    (now : Int) : ActiveRequests :=
  match m recipe_id with
  | some st =>
    if st.is_loading then
      m.insert recipe_id (.Error err st.start_time now)
    else m
  | none => m

/-- `C6`: `start_request` on a recipe whose state is `Loading` is rejected and
leaves the whole map (hence the original `start_time`) unchanged; on a recipe
whose state is absent or terminal (`Response`/`Error`) it sets that recipe's
state to `Loading now`, leaving every other recipe untouched. -/
theorem start_request_spec (m : ActiveRequests) (recipe_id : String)
    (now : Int) :
    (∀ t₀, m recipe_id = some (.Loading t₀) →
      start_request m recipe_id now = m ∧
      (start_request m recipe_id now) recipe_id = some (.Loading t₀)) ∧
    ((m recipe_id = none ∨
        (∃ st, m recipe_id = some st ∧ st.is_loading = false)) →
      (start_request m recipe_id now) recipe_id = some (.Loading now) ∧
      ∀ k, k ≠ recipe_id → (start_request m recipe_id now) k = m k) := by
  constructor
  · intro t₀ h
    have heq : start_request m recipe_id now = m := by
      simp [start_request, h, RequestState.is_loading]
    exact ⟨heq, by rw [heq, h]⟩
  · rintro (h | ⟨st, hst, hnl⟩)
    · constructor
      · simp [start_request, h, ActiveRequests.insert]
      · intro k hk
        simp [start_request, h, ActiveRequests.insert, hk]
    · constructor
      · simp [start_request, hst, hnl, ActiveRequests.insert]
      · intro k hk
        simp [start_request, hst, hnl, ActiveRequests.insert, hk]

/-- Witness for `start_request_spec`: starting while a request is already
loading at instant 7 keeps the stored `Loading 7`; starting over a terminal
`Error` state replaces it with `Loading now`. -/
theorem start_request_spec_witness :
    (start_request (fun _ => some (.Loading 7)) "recipe1" 9) "recipe1" =
      some (.Loading 7) ∧
    (start_request (fun _ => some (.Error "boom" 1 2)) "recipe1" 9)
      "recipe1" = some (.Loading 9) := by
  constructor
  · exact ((start_request_spec (fun _ => some (.Loading 7)) "recipe1" 9).1
      7 rfl).2
  · exact ((start_request_spec (fun _ => some (.Error "boom" 1 2))
      "recipe1" 9).2 (Or.inr ⟨.Error "boom" 1 2, rfl, rfl⟩)).1

/-- `C7`: `fail_request` on a recipe whose state is `Loading t₀` replaces that
state with `Error err t₀ now` (the `start_time` of the replaced loading state
is preserved, the `end_time` is the current instant), leaving other recipes
untouched; on a recipe whose state is absent or terminal it leaves the map
completely unchanged. -/
theorem fail_request_spec (m : ActiveRequests) (recipe_id : String)
    (err : String) (now : Int) :
    (∀ t₀, m recipe_id = some (.Loading t₀) →
      (fail_request m recipe_id err now) recipe_id =
        some (.Error err t₀ now) ∧
      ∀ k, k ≠ recipe_id → (fail_request m recipe_id err now) k = m k) ∧
    ((m recipe_id = none ∨
        (∃ st, m recipe_id = some st ∧ st.is_loading = false)) →
      fail_request m recipe_id err now = m) := by
  constructor
  · intro t₀ h
    constructor
    · simp [fail_request, h, RequestState.is_loading, RequestState.start_time,
        ActiveRequests.insert]
    · intro k hk
      simp [fail_request, h, RequestState.is_loading, ActiveRequests.insert,
        hk]
  · rintro (h | ⟨st, hst, hnl⟩)
    · simp [fail_request, h]
    · simp [fail_request, hst, hnl]

/-- Witness for `fail_request_spec`: failing a loading request started at
instant 7 stores `Error` with `start_time` 7 and `end_time` 9; failing a
recipe already in a `Response` state changes nothing. -/
theorem fail_request_spec_witness :
    (fail_request (fun _ => some (.Loading 7)) "recipe1" "boom" 9)
      "recipe1" = some (.Error "boom" 7 9) ∧
    fail_request (fun _ => some (.Response ⟨"recipe1", 1, 2⟩)) "recipe1"
      "boom" 9 = (fun _ => some (.Response ⟨"recipe1", 1, 2⟩)) := by
  constructor
  · exact ((fail_request_spec (fun _ => some (.Loading 7)) "recipe1"
      "boom" 9).1 7 rfl).1
  · exact (fail_request_spec (fun _ => some (.Response ⟨"recipe1", 1, 2⟩))
      "recipe1" "boom" 9).2
      (Or.inr ⟨.Response ⟨"recipe1", 1, 2⟩, rfl, rfl⟩)

/-! ## Chain resolution (`ChainSource::render`, template.rs lines 184-248) -/

/-- `serde_json::Value`: a JSON document. Numbers are modelled as integers
(their textual form is all the engine uses). -/
inductive Json where
  | null
  | bool (b : Bool)
  | num (n : Int)
  | str (s : String)
  | arr (xs : List Json)
  | obj (fields : List (String × Json))

/-- Hex digit used by serde_json's `\u00XX` escapes (lowercase). -/
def hexDigit (n : Nat) : Char :=
  if n < 10 then Char.ofNat (48 + n) else Char.ofNat (87 + n)

/-- serde_json's escaping of a single character inside a JSON string:
quote, backslash and the named control characters get two-character escapes,
any other control character a `\u00XX` escape, everything else is copied. -/
def jsonEscapeChar (c : Char) : List Char :=
  if c = '"' then ['\\', '"']
  else if c = '\\' then ['\\', '\\']
  else if c = '\x08' then ['\\', 'b']
  else if c = '\t' then ['\\', 't']
  else if c = '\n' then ['\\', 'n']
  else if c = '\x0c' then ['\\', 'f']
  else if c = '\r' then ['\\', 'r']
  else if c.toNat < 32 then
    ['\\', 'u', '0', '0', hexDigit (c.toNat / 16), hexDigit (c.toNat % 16)]
  else [c]

/-- serde_json's escaping of a whole string body. -/
def jsonEscape (s : String) : String :=
  String.mk (s.data.flatMap jsonEscapeChar)

mutual

/-- `serde_json::Value::to_string`: the compact JSON text form of a value
(no whitespace, fields in stored order, strings quoted and escaped). -/
def Json.compact : Json → String
  | .null => "null"
  | .bool b => if b then "true" else "false"
  | .num n => toString n
  | .str s => "\"" ++ jsonEscape s ++ "\""
  | .arr xs => "[" ++ Json.compactArr xs ++ "]"
  | .obj fields => "\x7b" ++ Json.compactObj fields ++ "\x7d"

/-- Comma-separated compact forms of an array's elements. -/
def Json.compactArr : List Json → String
  | [] => ""
  | [x] => Json.compact x
  | x :: y :: xs => Json.compact x ++ "," ++ Json.compactArr (y :: xs)

/-- Comma-separated `"key":value` compact forms of an object's fields. -/
def Json.compactObj : List (String × Json) → String
  | [] => ""
  | [(k, v)] => "\"" ++ jsonEscape k ++ "\":" ++ Json.compact v
  | (k, v) :: f :: fields =>
    "\"" ++ jsonEscape k ++ "\":" ++ Json.compact v ++ "," ++
      Json.compactObj (f :: fields)

end

/-- Modelled from the spec: a record stored in the Repository for a recipe,
as read by chain resolution (the Repository type itself is declared in a
module that is not part of the source under `src/`). Chain resolution only
reads the successful response's body text. -/
structure StoredRecord where
  response_body : String
  deriving Repr, DecidableEq

/-- `Chain` from the recipe-collection configuration (declared in the config
module, not under `src/`; shape taken from the spec's data model): a chain id,
the source recipe's id, and an optional JSON-path expression. -/
structure Chain where
  id : String
  source : String
  path : Option String
  deriving Repr, DecidableEq

/-- The external collaborators chain resolution calls into, abstracted as
functions: the Repository read (`get_last`), `JsonPath::parse`,
`Response::parse_body`, `parse_body(..).as_content_type::<Json>()` and the
JSON-path query. `P` is the parsed-path type, `B` the parsed-body type. -/
structure ChainEnv (B P : Type) where
  get_last : String → Except String (Option StoredRecord)
  parse_json_path : String → Except String P
  parse_body : StoredRecord → Except String B
  as_content_type_json : B → Except String Json
  query : P → Json → List Json

/-- `serde_json_path`'s `exactly_one()` on a query's node list: the single
node if there is exactly one, an error for zero or several. -/
def exactlyOne (nodes : List Json) : Except String Json :=
  match nodes with
  | [node] => .ok node
  | [] => .error "expected exactly one node, got none"
  | _ => .error "expected exactly one node, got multiple"

/-- `ChainSource::render` from `template.rs` lines 184-248: look the chain id
up in the context's chain list (`ChainUnknown` if absent), read the most
recent record for the chain's source recipe from the repository (`Repository`
error if the read fails, `ChainNoResponse` if there is none); with no
JSON-path the value is the stored body verbatim; with a JSON-path, parse the
path (`ChainJsonPath`), parse the body (`ChainParseResponse`), check its
content type (`ChainIncorrectContentType`), query and require exactly one
node (`ChainInvalidResult`), then stringify: a JSON string's unquoted
contents, any other node's compact text form. -/
def ChainSource.render {B P : Type} (env : ChainEnv B P)
    (context_chains : List Chain) (chain_id : String) :
    Except TemplateError String := do
  let chain ←
    match context_chains.find? (fun chain => chain.id == chain_id) with
    | some chain => pure chain
    | none => Except.error (.ChainUnknown chain_id)
  let recordOpt ← (env.get_last chain.source).mapError .Repository
  let record ←
    match recordOpt with
    | some record => pure record
    | none => Except.error (.ChainNoResponse chain_id)
  match chain.path with
  | some path_str => do
    let path ← (env.parse_json_path path_str).mapError
      (fun err => .ChainJsonPath chain_id path_str err)
    let parsed_body ← (env.parse_body record).mapError
      (fun err => .ChainParseResponse chain_id err)
    let json_value ← (env.as_content_type_json parsed_body).mapError
      (fun err => .ChainIncorrectContentType chain_id err)
    let found_value ← (exactlyOne (env.query path json_value)).mapError
      (fun err => .ChainInvalidResult chain_id err)
    match found_value with
    | .str s => pure s
    | other => pure other.compact
  | none => pure record.response_body

/-- `C4`: when chain resolution finds a stored record, then with no JSON-path
the resolved value is the stored response body verbatim; with a JSON-path
whose query matches exactly one node, the resolved value is the node's
unquoted contents if it is a JSON string, and its compact JSON text form
otherwise. -/
theorem chain_resolution_value {B P : Type} (env : ChainEnv B P)
    (chains : List Chain) (chain_id : String) (chain : Chain)
    (record : StoredRecord)
    (hfind : chains.find? (fun c => c.id == chain_id) = some chain)
    (hlast : env.get_last chain.source = .ok (some record)) :
    (chain.path = none →
      ChainSource.render env chains chain_id = .ok record.response_body) ∧
    (∀ path_str p b j node,
      chain.path = some path_str →
      env.parse_json_path path_str = .ok p →
      env.parse_body record = .ok b →
      env.as_content_type_json b = .ok j →
      env.query p j = [node] →
      ((∀ s, node = .str s →
          ChainSource.render env chains chain_id = .ok s) ∧
        ((∀ s, node ≠ .str s) →
          ChainSource.render env chains chain_id = .ok node.compact))) := by
  constructor
  · intro hpath
    simp [ChainSource.render, hfind, hlast, hpath, Except.mapError, Bind.bind, Except.bind, Pure.pure, Except.pure]
  · intro path_str p b j node hpath hp hb hj hq
    constructor
    · intro s hs
      subst hs
      simp [ChainSource.render, hfind, hlast, hpath, hp, hb, hj, hq,
        exactlyOne, Except.mapError, Bind.bind, Except.bind, Pure.pure,
        Except.pure]
    · intro hns
      cases node with
      | str s => exact absurd rfl (hns s)
      | null =>
        simp [ChainSource.render, hfind, hlast, hpath, hp, hb, hj, hq,
          exactlyOne, Except.mapError, Bind.bind, Except.bind, Pure.pure,
          Except.pure]
      | bool b2 =>
        simp [ChainSource.render, hfind, hlast, hpath, hp, hb, hj, hq,
          exactlyOne, Except.mapError, Bind.bind, Except.bind, Pure.pure,
          Except.pure]
      | num n =>
        simp [ChainSource.render, hfind, hlast, hpath, hp, hb, hj, hq,
          exactlyOne, Except.mapError, Bind.bind, Except.bind, Pure.pure,
          Except.pure]
      | arr xs =>
        simp [ChainSource.render, hfind, hlast, hpath, hp, hb, hj, hq,
          exactlyOne, Except.mapError, Bind.bind, Except.bind, Pure.pure,
          Except.pure]
      | obj fields =>
        simp [ChainSource.render, hfind, hlast, hpath, hp, hb, hj, hq,
          exactlyOne, Except.mapError, Bind.bind, Except.bind, Pure.pure,
          Except.pure]

/-- Concrete environment used to witness chain resolution: one stored record
whose body is the example object, a trivial parsed-path and parsed-body type,
and a query returning the number node `6`. -/
def chainEnvW : ChainEnv Unit Unit where
  get_last := fun _ => .ok (some ⟨"Hello World!"⟩)
  parse_json_path := fun _ => .ok ()
  parse_body := fun _ => .ok ()
  as_content_type_json := fun _ => .ok (.obj [("number", .num 6)])
  query := fun _ _ => [.num 6]

/-- Witness for `chain_resolution_value`: a chain with no path resolves to
the stored body verbatim, and a chain whose query finds the number node `6`
resolves to that node's compact text form. -/
theorem chain_resolution_value_witness :
    ChainSource.render chainEnvW [⟨"chain1", "recipe1", none⟩] "chain1" =
      .ok "Hello World!" ∧
    ChainSource.render chainEnvW
        [⟨"chain1", "recipe1", some "$.number"⟩] "chain1" =
      .ok (Json.num 6).compact := by
  constructor
  · exact (chain_resolution_value chainEnvW
      [⟨"chain1", "recipe1", none⟩] "chain1"
      ⟨"chain1", "recipe1", none⟩ ⟨"Hello World!"⟩ (by decide) rfl).1 rfl
  · exact ((chain_resolution_value chainEnvW
      [⟨"chain1", "recipe1", some "$.number"⟩] "chain1"
      ⟨"chain1", "recipe1", some "$.number"⟩ ⟨"Hello World!"⟩
      (by decide) rfl).2 "$.number" () () (.obj [("number", .num 6)])
      (.num 6) rfl rfl rfl rfl rfl).2 (fun s h => Json.noConfusion h)

/-! ## Template scanning (`TemplateString::render_borrow`, template.rs
lines 62-96) -/

/-- The key character class `[\w\d._-]` of the placeholder regex
`\{\{\s*([\w\d._-]+)\s*\}\}` (ASCII model of `\w`). -/
def isKeyChar (c : Char) : Bool :=
  c.isAlphanum || c = '_' || c = '.' || c = '-'

/-- The whitespace class `\s` of the placeholder regex (ASCII model). -/
def isSpaceChar (c : Char) : Bool :=
  c = ' ' || c = '\t' || c = '\n' || c = '\r' || c = '\x0b' || c = '\x0c'

/-- One attempted match of the placeholder regex anchored at the head of the
text: `{{`, optional whitespace, one or more key characters (the capture),
optional whitespace, `}}`. On success, returns the captured key and the text
after the match. The character classes are disjoint and exclude the closing
brace, so the regex's greedy scan is deterministic. -/
def matchAt : List Char → Option (List Char × List Char)
  | c1 :: c2 :: rest =>
    if c1 = '{' && c2 = '{' then
      let afterOpenSp := rest.dropWhile isSpaceChar
      let key := afterOpenSp.takeWhile isKeyChar
      let afterKey := afterOpenSp.dropWhile isKeyChar
      if key.isEmpty then none
      else
        match afterKey.dropWhile isSpaceChar with
        | d1 :: d2 :: rest2 =>
          if d1 = '}' && d2 = '}' then some (key, rest2) else none
        | _ => none
    else none
  | _ => none

theorem length_dropWhile_le {α : Type} (p : α → Bool) (l : List α) :
    (l.dropWhile p).length ≤ l.length := by
  induction l with
  | nil => simp
  | cons c cs ih =>
    by_cases h : p c
    · rw [List.dropWhile_cons_of_pos h]
      exact Nat.le_succ_of_le ih
    · rw [List.dropWhile_cons_of_neg h]

theorem matchAt_rest_length {l key rest2 : List Char}
    (h : matchAt l = some (key, rest2)) : rest2.length < l.length := by
  rcases l with _ | ⟨c1, _ | ⟨c2, rest⟩⟩
  · exact absurd h (by simp [matchAt])
  · exact absurd h (by simp [matchAt])
  · rw [matchAt] at h
    split at h
    · dsimp only at h
      split at h
      · exact absurd h (by simp)
      · split at h
        · split at h
          · rename_i d1 d2 rest3 heq _
            obtain ⟨rfl, rfl⟩ :
                (rest.dropWhile isSpaceChar).takeWhile isKeyChar = key ∧
                  rest3 = rest2 := by
              refine ⟨?_, ?_⟩ <;> · injection h with h1; simp_all
            have h1 : rest3.length + 2 ≤
                ((rest.dropWhile isSpaceChar).dropWhile isKeyChar).length := by
              have h0 := length_dropWhile_le isSpaceChar
                ((rest.dropWhile isSpaceChar).dropWhile isKeyChar)
              rw [heq] at h0
              simpa using h0
            have h2 :=
              length_dropWhile_le isKeyChar (rest.dropWhile isSpaceChar)
            have h3 := length_dropWhile_le isSpaceChar rest
            simp only [List.length_cons]
            omega
          · exact absurd h (by simp)
        · exact absurd h (by simp)
    · exact absurd h (by simp)

/-- The replacement loop of `TemplateString::render_borrow` from `template.rs`
lines 62-96: scan left to right for non-overlapping regex matches; literal
text outside matches is copied verbatim; each captured key is parsed and
resolved (the `resolve` argument is `key.into_value().render(context)`), its
rendered value is spliced in place of the `{{ ... }}` span, and scanning
resumes after the match; the first parse or resolve error aborts the render. -/
def renderChars (resolve : TemplateKey → Except TemplateError String) :
    List Char → Except TemplateError (List Char)
  | [] => .ok []
  | c :: cs =>
    match h : matchAt (c :: cs) with
    | some (key, rest2) => do
      let k ← TemplateKey.parse (String.mk key)
      let rendered_value ← resolve k
      let tail ← renderChars resolve rest2
      pure (rendered_value.data ++ tail)
    | none => do
      let tail ← renderChars resolve cs
      pure (c :: tail)
  termination_by l => l.length
  decreasing_by
  · exact matchAt_rest_length h
  · simp

/-- `TemplateString::render_borrow`: render the template string against a
resolver for parsed keys. -/
def render_borrow (resolve : TemplateKey → Except TemplateError String)
    (s : String) : Except TemplateError String :=
  (renderChars resolve s.data).map String.mk

/-- Does any suffix of the text start with a placeholder match, i.e. does the
string contain a substring matching the placeholder grammar? -/
def hasPlaceholder : List Char → Bool
  | [] => false
  | c :: cs => (matchAt (c :: cs)).isSome || hasPlaceholder cs

theorem renderChars_no_match
    (resolve : TemplateKey → Except TemplateError String) :
    ∀ l : List Char, hasPlaceholder l = false →
      renderChars resolve l = .ok l := by
  intro l
  induction l with
  | nil => intro _; simp [renderChars]
  | cons c cs ih =>
    intro h
    rw [hasPlaceholder, Bool.or_eq_false_iff] at h
    obtain ⟨h1, h2⟩ := h
    rw [renderChars]
    split
    · rename_i key rest2 heq
      rw [heq] at h1
      simp at h1
    · rw [ih h2]
      rfl

/-- `C9`: for every ASCII template string containing no substring that
matches the placeholder grammar, and every resolver (context), rendering
returns exactly the input string. -/
theorem render_no_placeholder
    (resolve : TemplateKey → Except TemplateError String) (s : String)
    (hascii : ∀ c ∈ s.data, c.toNat < 128)
    (h : hasPlaceholder s.data = false) :
    render_borrow resolve s = .ok s := by
  rw [render_borrow, renderChars_no_match resolve s.data h]
  rfl

/-- Witness for `render_no_placeholder`: a plain string renders to itself
under a resolver that could never be consulted. -/
theorem render_no_placeholder_witness :
    render_borrow (fun _ => .error (.FieldUnknown "unused")) "plain text" =
      .ok "plain text" :=
  render_no_placeholder (fun _ => .error (.FieldUnknown "unused"))
    "plain text" (by decide) (by decide)

/-! ## HTTP request construction (`HttpEngine::build_request`, http.rs
lines 56-99) -/

/-- `RequestRecipe` from the configuration: method, URL and header values and
optional body are template strings; header names are plain strings keyed in
the recipe's header map. -/
structure RequestRecipe where
  method : String
  url : String
  headers : List (String × String)
  body : Option String
  deriving Repr, DecidableEq

/-- `Response` from `http.rs` lines 40-45: status, headers, buffered text
content. -/
structure HttpResponse where
  status : Nat
  headers : List (String × String)
  content : String
  deriving Repr, DecidableEq

/-- `Request` from `http.rs` lines 25-36: the built request plus the result
slot (`Arc<RwLock<Option<reqwest::Result<Response>>>>`), modelled as an
optional transport result. -/
structure Request where
  method : String
  url : String
  headers : List (String × String)
  body : Option String
  response : Option (Except String HttpResponse)
  deriving Repr, DecidableEq

/-- The external collaborators of `build_request`, abstracted as functions:
the Template Engine's `render` (template string to rendered string or error
message) and the transport library's `Method::from_str`,
`HeaderName::from_str` and `HeaderValue::from_str`. -/
structure BuildEnv where
  render : String → Except String String
  parse_method : String → Except String String
  parse_header_name : String → Except String String
  parse_header_value : String → Except String String

/-- `anyhow`'s `.context(..)`: annotate an error with the failing step. -/
def withContext (ctx : String) (e : String) : String := ctx ++ ": " ++ e

/-- The header-map loop of `build_request` (http.rs lines 66-85): for each
recipe header, parse the *key as written* as a header name, render the value
template through the engine, parse the rendered value, and append; the first
failure aborts with that step's annotated error. -/
def buildHeaders (env : BuildEnv) :
    List (String × String) → Except String (List (String × String))
  | [] => .ok []
  | (key, value_template) :: rest => do
    let name ← (env.parse_header_name key).mapError
      (withContext "Error parsing header name")
    let rendered ← (env.render value_template).mapError
      (withContext ("Error rendering value for header " ++ key))
    let value ← (env.parse_header_value rendered).mapError
      (withContext "Error parsing header value")
    let tail ← buildHeaders env rest
    .ok ((name, value) :: tail)

/-- `HttpEngine::build_request` from `http.rs` lines 56-99: render and parse
the method, render the URL, build the header map, render the optional body;
the first failure aborts construction; on success the `Request` is returned
with an empty (`None`) result slot. -/
def build_request (env : BuildEnv) (recipe : RequestRecipe) :
    Except String Request := do
  let method_rendered ← env.render recipe.method
  let method ← env.parse_method method_rendered
  let url ← env.render recipe.url
  let headers ← buildHeaders env recipe.headers
  let body ←
    match recipe.body with
    | some body_template => (env.render body_template).map some
    | none => pure none
  .ok { method, url, headers, body, response := none }

/-- The header-map loop as claim `C3` describes it: identical to
`buildHeaders` except that each header *name* is first rendered through the
Template Engine and the rendered name is validated. Stated from the claim's
words, for comparison with the source-derived `buildHeaders`. -/
def buildHeadersClaimed (env : BuildEnv) :
    List (String × String) → Except String (List (String × String))
  | [] => .ok []
  | (key, value_template) :: rest => do
    let key_rendered ← env.render key
    let name ← (env.parse_header_name key_rendered).mapError
      (withContext "Error parsing header name")
    let rendered ← (env.render value_template).mapError
      (withContext ("Error rendering value for header " ++ key))
    let value ← (env.parse_header_value rendered).mapError
      (withContext "Error parsing header value")
    let tail ← buildHeadersClaimed env rest
    .ok ((name, value) :: tail)

/-- `build_request` as claim `C3` states it: like `build_request` but with
header names rendered through the Template Engine before validation. -/
def build_request_claimed (env : BuildEnv) (recipe : RequestRecipe) :
    Except String Request := do
  let method_rendered ← env.render recipe.method
  let method ← env.parse_method method_rendered
  let url ← env.render recipe.url
  let headers ← buildHeadersClaimed env recipe.headers
  let body ←
    match recipe.body with
    | some body_template => (env.render body_template).map some
    | none => pure none
  .ok { method, url, headers, body, response := none }

/-- Header-name token characters accepted by `HeaderName::from_str` in the
`http` crate (letters, digits, and the RFC 7230 token specials; uppercase is
accepted and normalized to lowercase). The apostrophe character is written by
code point. -/
def isHeaderNameChar (c : Char) : Bool :=
  c.isAlpha || c.isDigit || c = '!' || c = '#' || c = '$' || c = '%' ||
    c = '&' || c = '*' || c = '+' || c = '-' || c = '.' || c = '^' ||
    c = '_' || c = '|' || c = '~' || c.toNat = 39 || c.toNat = 96

/-- ASCII lowercasing of one character. -/
def asciiLower (c : Char) : Char :=
  if 65 ≤ c.toNat ∧ c.toNat ≤ 90 then Char.ofNat (c.toNat + 32) else c

/-- `HeaderName::from_str` modelled from the `http` crate: nonempty token
strings are accepted and normalized to lowercase, anything else (including
`{` and `}`) is rejected. -/
def headerNameFromStr (s : String) : Except String String :=
  if !s.data.isEmpty && s.data.all isHeaderNameChar then
    .ok (String.mk (s.data.map asciiLower))
  else .error "invalid HTTP header name"

/-- Environment for the `C3` counterexample: the engine renders the
placeholder-bearing header key to `X-Foo` and leaves every other string
unchanged; header names are validated by the modelled `HeaderName` parser;
methods and header values are accepted as-is. -/
def buildEnvC : BuildEnv where
  render := fun s => if s = "\x7b\x7bh\x7d\x7d" then .ok "X-Foo" else .ok s
  parse_method := fun s => .ok s
  parse_header_name := headerNameFromStr
  parse_header_value := fun s => .ok s

/-- Recipe for the `C3` counterexample: one header whose *name* is the
placeholder `{{h}}`. -/
def recipeC : RequestRecipe where
  method := "GET"
  url := "http://example.com"
  headers := [("\x7b\x7bh\x7d\x7d", "v")]
  body := none

/-- `C3` counterexample: the claim says header names are rendered through the
Template Engine (then validated). On a recipe whose header name is the
placeholder `{{h}}` (rendering to `X-Foo`), the code passes the raw key to
the header-name parser and fails, while the claimed behaviour succeeds with
the rendered, normalized name. -/
theorem build_request_header_names_not_rendered :
    build_request buildEnvC recipeC =
      .error "Error parsing header name: invalid HTTP header name" ∧
    build_request_claimed buildEnvC recipeC =
      .ok { method := "GET", url := "http://example.com",
            headers := [("x-foo", "v")], body := none, response := none } := by
  constructor
  · decide
  · decide

/-- One recipe header `src` is built into request header `built`: the name is
the key as written, validated; the value is rendered then validated. -/
def headerBuilt (env : BuildEnv) (src built : String × String) : Prop :=
  env.parse_header_name src.1 = .ok built.1 ∧
  ∃ rendered, env.render src.2 = .ok rendered ∧
    env.parse_header_value rendered = .ok built.2

theorem buildHeaders_ok (env : BuildEnv) :
    ∀ hs built, buildHeaders env hs = .ok built →
      List.Forall₂ (headerBuilt env) hs built := by
  intro hs
  induction hs with
  | nil =>
    intro built h
    simp only [buildHeaders] at h
    injection h with h
    subst h
    exact .nil
  | cons hd rest ih =>
    intro built h
    obtain ⟨key, vt⟩ := hd
    rw [buildHeaders] at h
    cases h1 : env.parse_header_name key with
    | error e => simp [h1, Except.mapError, Bind.bind, Except.bind] at h
    | ok name =>
      cases h2 : env.render vt with
      | error e =>
        simp [h1, h2, Except.mapError, Bind.bind, Except.bind] at h
      | ok rendered =>
        cases h3 : env.parse_header_value rendered with
        | error e =>
          simp [h1, h2, h3, Except.mapError, Bind.bind, Except.bind] at h
        | ok value =>
          cases h4 : buildHeaders env rest with
          | error e =>
            simp [h1, h2, h3, h4, Except.mapError, Bind.bind,
              Except.bind] at h
          | ok tail =>
            simp only [h1, h2, h3, h4, Except.mapError, Bind.bind,
              Except.bind] at h
            injection h with h
            subst h
            exact List.Forall₂.cons ⟨h1, rendered, h2, h3⟩ (ih tail h4)

/-- `C3` (amended): `build_request` renders the method, the URL, each header
value and the optional body through the Template Engine; header names are
taken verbatim from the recipe and only validated against header-name
syntax; a failure at any step aborts construction with that step's
(annotated) error and no Request is produced; on success the Request's
result slot is empty. -/
theorem build_request_spec (env : BuildEnv) (recipe : RequestRecipe) :
    (∀ req, build_request env recipe = .ok req →
      req.response = none ∧
      (∃ m, env.render recipe.method = .ok m ∧
        env.parse_method m = .ok req.method) ∧
      env.render recipe.url = .ok req.url ∧
      List.Forall₂ (headerBuilt env) recipe.headers req.headers ∧
      (recipe.body = none → req.body = none) ∧
      (∀ b, recipe.body = some b →
        ∃ rb, env.render b = .ok rb ∧ req.body = some rb)) ∧
    (∀ e, env.render recipe.method = .error e →
      build_request env recipe = .error e) ∧
    (∀ m pm e, env.render recipe.method = .ok m →
      env.parse_method m = .ok pm → env.render recipe.url = .error e →
      build_request env recipe = .error e) ∧
    (∀ m pm u e, env.render recipe.method = .ok m →
      env.parse_method m = .ok pm → env.render recipe.url = .ok u →
      buildHeaders env recipe.headers = .error e →
      build_request env recipe = .error e) ∧
    (∀ m pm u hs b e, env.render recipe.method = .ok m →
      env.parse_method m = .ok pm → env.render recipe.url = .ok u →
      buildHeaders env recipe.headers = .ok hs → recipe.body = some b →
      env.render b = .error e → build_request env recipe = .error e) ∧
    (∀ key vt rest name e, env.parse_header_name key = .ok name →
      env.render vt = .error e →
      buildHeaders env ((key, vt) :: rest) =
        .error (withContext ("Error rendering value for header " ++ key) e)) := by
  refine ⟨?_, ?_, ?_, ?_, ?_, ?_⟩
  · intro req h
    rw [build_request] at h
    cases h1 : env.render recipe.method with
    | error e => simp [h1, Bind.bind, Except.bind] at h
    | ok m =>
      cases h2 : env.parse_method m with
      | error e => simp [h1, h2, Bind.bind, Except.bind] at h
      | ok pm =>
        cases h3 : env.render recipe.url with
        | error e => simp [h1, h2, h3, Bind.bind, Except.bind] at h
        | ok u =>
          cases h4 : buildHeaders env recipe.headers with
          | error e => simp [h1, h2, h3, h4, Bind.bind, Except.bind] at h
          | ok hs =>
            cases hb : recipe.body with
            | none =>
              simp only [h1, h2, h3, h4, hb, Bind.bind, Except.bind,
                Pure.pure, Except.pure] at h
              injection h with h
              subst h
              exact ⟨rfl, ⟨m, rfl, h2⟩, rfl, buildHeaders_ok env _ _ h4,
                fun _ => rfl, fun b hb2 => Option.noConfusion hb2⟩
            | some bt =>
              cases h5 : env.render bt with
              | error e =>
                simp [h1, h2, h3, h4, hb, h5, Bind.bind, Except.bind,
                  Except.map] at h
              | ok rb =>
                simp only [h1, h2, h3, h4, hb, h5, Bind.bind, Except.bind,
                  Except.map, Pure.pure, Except.pure] at h
                injection h with h
                subst h
                refine ⟨rfl, ⟨m, rfl, h2⟩, rfl, buildHeaders_ok env _ _ h4,
                  fun hx => Option.noConfusion hx, ?_⟩
                intro b hb2
                injection hb2 with hb2
                subst hb2
                exact ⟨rb, h5, rfl⟩
  · intro e h1
    simp [build_request, h1, Bind.bind, Except.bind]
  · intro m pm e h1 h2 h3
    simp [build_request, h1, h2, h3, Bind.bind, Except.bind]
  · intro m pm u e h1 h2 h3 h4
    simp [build_request, h1, h2, h3, h4, Bind.bind, Except.bind]
  · intro m pm u hs b e h1 h2 h3 h4 h5 h6
    simp [build_request, h1, h2, h3, h4, h5, h6, Bind.bind, Except.bind,
      Except.map]
  · intro key vt rest name e h1 h2
    simp [buildHeaders, h1, h2, Except.mapError, Bind.bind, Except.bind]

/-- Witness for `build_request_spec`: on a recipe whose fields all render,
construction succeeds, the result slot is empty and the header name is taken
verbatim (validated and normalized, not rendered); and a failing header-value
render aborts with that header's annotated error. -/
theorem build_request_spec_witness :
    (build_request buildEnvC
        { method := "GET", url := "http://example.com",
          headers := [("X-Api-Key", "v")], body := none } =
      .ok { method := "GET", url := "http://example.com",
            headers := [("x-api-key", "v")], body := none,
            response := none }) ∧
    buildHeaders
        { render := fun _ => .error "boom", parse_method := fun s => .ok s,
          parse_header_name := headerNameFromStr,
          parse_header_value := fun s => .ok s }
        [("X-Api-Key", "v")] =
      .error "Error rendering value for header X-Api-Key: boom" := by
  constructor
  · decide
  · exact (build_request_spec
      { render := fun _ => .error "boom", parse_method := fun s => .ok s,
        parse_header_name := headerNameFromStr,
        parse_header_value := fun s => .ok s }
      { method := "GET", url := "u", headers := [], body := none }).2.2.2.2.2
      "X-Api-Key" "v" [] "x-api-key" "boom" (by decide) rfl

/-! ## The result slot (`HttpEngine::send_request`, http.rs lines 103-145) -/

/-- One access to a request's result slot
(`Arc<RwLock<Option<reqwest::Result<Response>>>>`). -/
inductive SlotAction (R : Type) where
  | write (result : R)
  | read
  deriving Repr, DecidableEq

/-- Is the slot access a write? -/
def SlotAction.isWrite {R : Type} : SlotAction R → Bool
  | .write _ => true
  | .read => false

/-- The slot accesses performed by the background task spawned by
`HttpEngine::send_request` (http.rs lines 121-144): the task executes the
request, materializes the outcome, and performs exactly one write of that
outcome (the single assignment on line 143). -/
def sendRequestTaskWrites {R : Type} (result : R) : List (SlotAction R) :=
  [.write result]

/-- Effect of one slot access on the slot's contents: a read leaves the slot
unchanged, a write stores its result. -/
def slotStep {R : Type} : Option R → SlotAction R → Option R
  | s, .read => s
  | _, .write r => some r

/-- The successive contents of the slot along a trace of accesses. -/
def slotStates {R : Type} (init : Option R) (tr : List (SlotAction R)) :
    List (Option R) :=
  tr.scanl slotStep init

theorem slotStates_no_write {R : Type} (init : Option R) :
    ∀ tr : List (SlotAction R), tr.filter SlotAction.isWrite = [] →
      slotStates init tr = List.replicate (tr.length + 1) init := by
  intro tr
  induction tr generalizing init with
  | nil => intro _; simp [slotStates]
  | cons a rest ih =>
    intro h
    cases a with
    | write r => simp [List.filter_cons, SlotAction.isWrite] at h
    | read =>
      rw [List.filter_cons] at h
      simp only [SlotAction.isWrite, Bool.false_eq_true, if_neg] at h
      simp only [slotStates] at ih ⊢
      rw [List.scanl_cons, show slotStep init SlotAction.read = init from rfl,
        ih init h, List.length_cons]
      simp [List.replicate_succ]

theorem slotStates_single_write {R : Type} (result : R) :
    ∀ tr : List (SlotAction R),
      tr.filter SlotAction.isWrite = [.write result] →
      ∃ n m, n + m = tr.length ∧
        slotStates none tr =
          List.replicate (n + 1) (none : Option R) ++
            List.replicate m (some result) := by
  intro tr
  induction tr with
  | nil => intro h; simp at h
  | cons a rest ih =>
    intro h
    cases a with
    | read =>
      rw [List.filter_cons] at h
      simp only [SlotAction.isWrite, Bool.false_eq_true, if_neg] at h
      obtain ⟨n, m, hnm, hst⟩ := ih h
      refine ⟨n + 1, m, by simp only [List.length_cons]; omega, ?_⟩
      simp only [slotStates] at hst ⊢
      rw [List.scanl_cons, show slotStep none SlotAction.read = none from rfl,
        hst, List.replicate_succ]
      rfl
    | write r =>
      rw [List.filter_cons] at h
      simp only [SlotAction.isWrite, if_pos] at h
      injection h with h1 h2
      injection h1 with hr
      subst hr
      refine ⟨0, rest.length + 1, by simp, ?_⟩
      have hz := slotStates_no_write (some r) rest h2
      simp only [slotStates] at hz ⊢
      rw [List.scanl_cons,
        show slotStep none (SlotAction.write r) = some r from rfl, hz]
      simp [List.replicate_succ]

theorem build_request_slot_empty (env : BuildEnv) (recipe : RequestRecipe) :
    ∀ req, build_request env recipe = .ok req → req.response = none := by
  intro req h
  rw [build_request] at h
  cases h1 : env.render recipe.method with
  | error e => simp [h1, Bind.bind, Except.bind] at h
  | ok m =>
    cases h2 : env.parse_method m with
    | error e => simp [h1, h2, Bind.bind, Except.bind] at h
    | ok pm =>
      cases h3 : env.render recipe.url with
      | error e => simp [h1, h2, h3, Bind.bind, Except.bind] at h
      | ok u =>
        cases h4 : buildHeaders env recipe.headers with
        | error e => simp [h1, h2, h3, h4, Bind.bind, Except.bind] at h
        | ok hs =>
          cases hb : recipe.body with
          | none =>
            simp only [h1, h2, h3, h4, hb, Bind.bind, Except.bind,
              Pure.pure, Except.pure] at h
            injection h with h
            subst h
            rfl
          | some bt =>
            cases h5 : env.render bt with
            | error e =>
              simp [h1, h2, h3, h4, hb, h5, Bind.bind, Except.bind,
                Except.map] at h
            | ok rb =>
              simp only [h1, h2, h3, h4, hb, h5, Bind.bind, Except.bind,
                Except.map, Pure.pure, Except.pure] at h
              injection h with h
              subst h
              rfl

/-- `C8`: the result slot starts empty at construction, and along any trace
of slot accesses whose writes are exactly the single write performed by the
spawned task (the control loop, per the spec, only reads), the slot's
contents are a block of `none` states followed by a block of `some result`
states: it transitions empty-to-filled exactly once and is never cleared or
overwritten afterwards. -/
theorem result_slot_single_transition {R : Type} (env : BuildEnv)
    (recipe : RequestRecipe) (result : R) (tr : List (SlotAction R))
    (hwrites : tr.filter SlotAction.isWrite = sendRequestTaskWrites result) :
    (∀ req, build_request env recipe = .ok req → req.response = none) ∧
    ∃ n m, n + m = tr.length ∧
      slotStates none tr =
        List.replicate (n + 1) (none : Option R) ++
          List.replicate m (some result) :=
  ⟨build_request_slot_empty env recipe,
    slotStates_single_write result tr hwrites⟩

/-- Witness for `result_slot_single_transition`: a three-access trace
(read, the task's write of `5`, read) yields slot contents
`[none, none, some 5, some 5]`: one transition, never cleared. -/
theorem result_slot_single_transition_witness :
    ∃ n m, n + m = 3 ∧
      slotStates none [.read, SlotAction.write 5, .read] =
        List.replicate (n + 1) (none : Option Nat) ++
          List.replicate m (some 5) :=
  (result_slot_single_transition buildEnvC recipeC 5
    [.read, .write 5, .read] (by decide)).2

/-! ## Fixed-size selection state (`StatefulSelect`, tui/state.rs
lines 419-478) -/

/-- `StatefulSelect<T>` from `tui/state.rs` lines 419-423: a fixed list of
selectable values and the selected index. -/
structure StatefulSelect (T : Type) where
  values : List T
  selected : Nat
  deriving Repr, DecidableEq

/-- `StatefulSelect::new` from `tui/state.rs` lines 432-442: `values` models
`T::iter().collect()`, `default_index` models `T::DEFAULT_INDEX`; an empty
value list panics (modelled as `none`). -/
def StatefulSelect.new {T : Type} (values : List T) (default_index : Nat) :
    Option (StatefulSelect T) :=
  if values.isEmpty then none
  else some { values := values, selected := default_index }

/-- `StatefulSelect::selected_index` from lines 445-447. -/
def StatefulSelect.selected_index {T : Type} (s : StatefulSelect T) : Nat :=
  s.selected

/-- `StatefulSelect::selected` from lines 450-452: index into `values`
(`none` models the panic on an out-of-bounds index). -/
def StatefulSelect.selectedValue {T : Type} (s : StatefulSelect T) :
    Option T :=
  s.values.get? s.selected

/-- `StatefulSelect::previous` from lines 460-466:
`selected.checked_sub(1).unwrap_or(values.len() - 1)`. -/
def StatefulSelect.previous {T : Type} (s : StatefulSelect T) :
    StatefulSelect T :=
  { s with
    selected :=
      if s.selected = 0 then s.values.length - 1 else s.selected - 1 }

/-- `StatefulSelect::next` from lines 469-471:
`(selected + 1) % values.len()`. -/
def StatefulSelect.next {T : Type} (s : StatefulSelect T) :
    StatefulSelect T :=
  { s with selected := (s.selected + 1) % s.values.length }

/-- A user interaction with the selection state. -/
inductive SelectOp where
  | previous
  | next
  deriving Repr, DecidableEq

/-- Apply one interaction. -/
def StatefulSelect.applyOp {T : Type} (s : StatefulSelect T) :
    SelectOp → StatefulSelect T
  | .previous => s.previous
  | .next => s.next

/-- Apply a sequence of interactions. -/
def StatefulSelect.run {T : Type} (s : StatefulSelect T)
    (ops : List SelectOp) : StatefulSelect T :=
  ops.foldl StatefulSelect.applyOp s

theorem stateful_select_run_invariant {T : Type} (values : List T)
    (hne : values ≠ []) :
    ∀ (ops : List SelectOp) (sel : Nat), sel < values.length →
      (StatefulSelect.run ⟨values, sel⟩ ops).values = values ∧
      (StatefulSelect.run ⟨values, sel⟩ ops).selected < values.length := by
  have hpos : 0 < values.length := List.length_pos.mpr hne
  intro ops
  induction ops with
  | nil => intro sel h; exact ⟨rfl, h⟩
  | cons op rest ih =>
    intro sel h
    cases op with
    | previous =>
      have hstep : StatefulSelect.run ⟨values, sel⟩ (.previous :: rest) =
          StatefulSelect.run
            ⟨values, if sel = 0 then values.length - 1 else sel - 1⟩
            rest := rfl
      rw [hstep]
      refine ih _ ?_
      by_cases h0 : sel = 0
      · simp [h0]
        omega
      · simp [h0]
        omega
    | next =>
      have hstep : StatefulSelect.run ⟨values, sel⟩ (.next :: rest) =
          StatefulSelect.run ⟨values, (sel + 1) % values.length⟩ rest := rfl
      rw [hstep]
      exact ih _ (Nat.mod_lt _ hpos)

/-- `C10`: for a value list with at least one element and a default index in
bounds (every `FixedSelect` instance in the source satisfies both),
`StatefulSelect::new` succeeds, and after any sequence of `previous`/`next`
interactions the selected index stays strictly below the (unchanged) value
list's length, so `selected()` and `selected_index()` never index out of
bounds. -/
theorem stateful_select_in_bounds {T : Type} (values : List T)
    (default_index : Nat) (hne : values ≠ [])
    (hdi : default_index < values.length) :
    ∃ s₀, StatefulSelect.new values default_index = some s₀ ∧
      ∀ ops : List SelectOp,
        (s₀.run ops).values = values ∧
        (s₀.run ops).selected_index < values.length ∧
        ((s₀.run ops).selectedValue).isSome := by
  refine ⟨⟨values, default_index⟩, ?_, ?_⟩
  · simp [StatefulSelect.new, hne]
  · intro ops
    obtain ⟨hv, hs⟩ := stateful_select_run_invariant values hne ops
      default_index hdi
    refine ⟨hv, hs, ?_⟩
    rw [StatefulSelect.selectedValue, hv]
    rw [List.get?_eq_get (by exact hs)]
    rfl

/-- Witness for `stateful_select_in_bounds`, at the shape of `PrimaryPane`
(`DEFAULT_INDEX = 1`): a two-value list with default index 1 yields a
selection state that stays in bounds. -/
theorem stateful_select_in_bounds_witness :
    ∃ s₀, StatefulSelect.new [10, 20] 1 = some s₀ ∧
      ∀ ops : List SelectOp,
        (s₀.run ops).values = [10, 20] ∧
        (s₀.run ops).selected_index < 2 ∧
        ((s₀.run ops).selectedValue).isSome :=
  stateful_select_in_bounds [10, 20] 1 (by decide) (by decide)

end Slumber
